import Mathlib

/-!
# Verification of the DMM DYN4 serial protocol codec (`dmm_dyn4/dyn4.py`)

Shallow embedding of the protocol core of `dyn4.py`: the outbound frame
builders (`general_read2`, `general_read`, `set_Config`, `set_speed`), the
inbound byte-accumulation loop of `read_response`, the frame decoder
(checksum check, length check, and the per-function-identifier value
decoding including `read_signed_val` / `sign_extend`), and the retry loop
`check_response`.

Python integers are modelled as `Nat` (for byte values, which are always
non-negative) and `Int` (for signed quantities such as the accumulator of
`read_signed_val` and the `rpm` argument of `set_speed`).  Python's
arithmetic right shift `x >> n` on a possibly negative integer is floor
division by `2 ^ n`; `x << n` is multiplication by `2 ^ n`; `x & m` on
non-negative values is `Nat.land`, and on arbitrary integers `Int.land`.
-/

namespace Dyn4

/-- Python's `x >> n` on an arbitrary integer: arithmetic shift, i.e. floor
division by `2 ^ n`. -/
def pyShr (x : Int) (n : Nat) : Int := Int.fdiv x (2 ^ n)

/-- Python's `x << n` on an arbitrary integer: multiplication by `2 ^ n`. -/
def pyShl (x : Int) (n : Nat) : Int := x * 2 ^ n

/-- Python's `x & m` for an arbitrary integer `x` and a non-negative mask
`m`; the result is non-negative, so we return it as a `Nat`. -/
def pyAnd (x : Int) (m : Nat) : Nat := (Int.land x (Int.ofNat m)).toNat

/-- `sign_extend(value, bits)` from `dyn4.py`:
`sign_bit = 1 << (bits - 1); return (value & (sign_bit - 1)) - (value & sign_bit)`.
At its only call site `value` is a non-negative byte shifted left by one, so
the argument is modelled as `Nat`; the result can be negative. -/
def sign_extend (value : Nat) (bits : Nat) : Int :=
  let sign_bit : Nat := 1 <<< (bits - 1)
  (Int.ofNat (value &&& (sign_bit - 1))) - (Int.ofNat (value &&& sign_bit))

/-- `DMMDrive.read_signed_val(arr)` from `dyn4.py`:
`arr2 = arr[2:-1]; x = sign_extend(arr2[0] << 1, 8) >> 1;`
`for y in arr2[1:]: x = (x << 7) + (y & 0x7f)`. -/
def read_signed_val (arr : List Nat) : Int :=
  let arr2 := (arr.drop 2).dropLast
  let x := pyShr (sign_extend (arr2.headD 0 <<< 1) 8) 1
  arr2.tail.foldl (fun x y => pyShl x 7 + Int.ofNat (y &&& 0x7f)) x

/-- `DMMDrive.verify_func_id` from `dyn4.py`: the identifier must lie in
`{0x10, ..., 0x1b} ∪ {0x1e}`, otherwise `DMMExceptionUnknownFunctionID`
is raised. -/
def verify_func_id (func_id : Nat) : Bool :=
  decide (0x10 ≤ func_id ∧ func_id ≤ 0x1b) || decide (func_id = 0x1e)

/-- The packet built by `DMMDrive.general_read2(func_id2)`:
`[0x00 | drive_id, 0x80 | (0 << 5) | func_id2, 0x80]` followed by the
checksum byte `0x80 | (sum(packet) & 0x7f)`. -/
def general_read2_packet (drive_id func_id2 : Nat) : List Nat :=
  let packet : List Nat := [0x00 ||| drive_id, 0x80 ||| (0 <<< 5) ||| func_id2, 0x80]
  packet ++ [0x80 ||| (packet.sum &&& 0x7f)]

/-- The packet built by `DMMDrive.general_read(func_id)` when
`verify_func_id` passes (`none` models the raised
`DMMExceptionUnknownFunctionID` when it does not):
`[0x00 | drive_id, 0x80 | (0 << 5) | 0x0e, 0x80 | (func_id & 0x7f)]` plus
the checksum byte. -/
def general_read_packet (drive_id func_id : Nat) : Option (List Nat) :=
  if verify_func_id func_id then
    let packet : List Nat :=
      [0x00 ||| drive_id, 0x80 ||| (0 <<< 5) ||| 0x0e, 0x80 ||| (func_id &&& 0x7f)]
    some (packet ++ [0x80 ||| (packet.sum &&& 0x7f)])
  else none

/-- The configuration byte hard-coded in `DMMDrive.set_Config`:
`(0 << 6) | (1 << 5) | (0x01 << 3) | (0 << 2) | (0x03 << 0)`. -/
def set_Config_cnf : Nat :=
  (0 <<< 6) ||| (1 <<< 5) ||| (0x01 <<< 3) ||| (0 <<< 2) ||| (0x03 <<< 0)

/-- The packet built by `DMMDrive.set_Config`:
`[0x00 | drive_id, 0x80 | (0 << 5) | func_id2, 0x80 | cnf]` with
`func_id2 = host_fids['Set_Drive_Config'] = 0x07`, plus the checksum
byte. -/
def set_Config_packet (drive_id : Nat) : List Nat :=
  let packet : List Nat := [0x00 ||| drive_id, 0x80 ||| (0 <<< 5) ||| 0x07,
    0x80 ||| set_Config_cnf]
  packet ++ [0x80 ||| (packet.sum &&& 0x7f)]

/-- The packet built by `DMMDrive.set_speed(rpm)`:
`[0x00 | drive_id, 0x80 | (3 << 5) | 0x0a]` followed by the four 7-bit
groups `0x80 | ((rpm >> 7*k) & 0x7f)` for `k = 3, 2, 1, 0`, plus the
checksum byte.  `rpm` is an arbitrary (possibly negative) integer. -/
def set_speed_packet (drive_id : Nat) (rpm : Int) : List Nat :=
  let packet : List Nat := [0x00 ||| drive_id, 0x80 ||| (3 <<< 5) ||| 0x0a,
    0x80 ||| pyAnd (pyShr rpm (7 * 3)) 0x7f,
    0x80 ||| pyAnd (pyShr rpm (7 * 2)) 0x7f,
    0x80 ||| pyAnd (pyShr rpm (7 * 1)) 0x7f,
    0x80 ||| pyAnd (pyShr rpm (7 * 0)) 0x7f]
  packet ++ [0x80 ||| (packet.sum &&& 0x7f)]

/-- The checksum acceptance relation used by `read_response`:
`(sum(arr[:-1]) ^ arr[-1]) & 0x7f == 0`. -/
def checksum_ok (frame : List Nat) : Bool :=
  ((frame.dropLast.sum ^^^ frame.getLastD 0) &&& 0x7f) == 0

/-- The byte-accumulation loop of `DMMDrive.read_response`, reading from a
finite byte list (exhaustion of the list models the serial read timeout).
Per iteration: a byte with clear high bit restarts the frame (`arr = [x]`,
`expected_len = 0`); every byte is appended; when the accumulator reaches
length 2 the expected frame length `4 + ((x >> 5) & 0x03)` is latched; the
loop stops when the accumulator reaches the expected length.  Returns the
completed frame (or `none` on timeout) together with the unconsumed rest of
the input. -/
def read_loop : List Nat → List Nat → Nat → Option (List Nat) × List Nat
  | [], _, _ => (none, [])
  | x :: input, arr, expected_len =>
    let arr' := if x &&& 0x80 = 0 then [x] else arr ++ [x]
    let el' := if x &&& 0x80 = 0 then 0 else expected_len
    let el'' := if arr'.length = 2 then 4 + ((x >>> 5) &&& 0x03) else el'
    if arr'.length = el'' then (some arr', input) else read_loop input arr' el''

/-- The status dictionary built by the `func_id == 0x19` (`Is_Status`)
branch of `read_response`; each field holds the string the Python code
finally assigns for that key. -/
structure StatusDict where
  in_position : String
  motor : String
  alarm : String
  motion : String
  pin2 : String
deriving DecidableEq

/-- The configuration dictionary built by the `func_id == 0x1a`
(`Is_Config`) branch of `read_response`; each field holds the string the
Python code finally assigns for that key. -/
structure ConfigDict where
  input_mode : String
  positioning : String
  servo_mode : String
  enabled : String
  b6 : String
deriving DecidableEq

/-- The value `x` returned in the second component of `read_response`'s
result: either a decoded value (plain 7-bit scalar, gear-number pair,
status or configuration dictionary, signed integer) or, when no decoding
branch assigned to `x`, the last raw byte read from the transport. -/
inductive DynValue where
  | raw (b : Nat)
  | scalar7 (v : Nat)
  | gear (a b : Nat)
  | statusRec (r : StatusDict)
  | configRec (r : ConfigDict)
  | signed (v : Int)
deriving DecidableEq

/-- Outcome of one `read_response` call: `timeout` models `return False`;
`ok` models `return func_id, x`; `lengthErr` models a raised
`DMMExceptionUnexpectedLength(n, expected_n)`; `nameError` models the
unreachable fall-through in which Python would hit an unbound local. -/
inductive ReadResult where
  | timeout
  | ok (func_id : Nat) (x : DynValue)
  | lengthErr (n expected_n : Nat)
  | nameError
deriving DecidableEq

/-- The status dictionary assembled from `x = arr[2] & 0x7f` in the
`Is_Status` branch (keeping, for each key, the string the Python code
assigns last in the taken branch). -/
def statusDict (x : Nat) : StatusDict :=
  { in_position := if x &&& (1 <<< 0) ≠ 0 then "0" else "1"
    motor := if x &&& (1 <<< 1) ≠ 0 then "motor free" else "motor servo"
    alarm :=
      let x2 := (x >>> 2) &&& 0x7
      if x2 = 0 then ""
      else if x2 = 1 then "lost phase"
      else if x2 = 2 then "over current"
      else if x2 = 3 then "overheat or over power"
      else if x2 = 4 then "corrupt command"
      else "TBD"
    motion := if x &&& (1 <<< 5) ≠ 0 then "busy" else "completed"
    pin2 := if x &&& (1 <<< 6) ≠ 0 then "1" else "0" }

/-- The configuration dictionary assembled from `x = arr[2] & 0x7f` in the
`Is_Config` branch. -/
def configDict (x : Nat) : ConfigDict :=
  { input_mode :=
      let x2 := x &&& 0x03
      if x2 = 0 then "RS232"
      else if x2 = 1 then "CW/CCW"
      else if x2 = 2 then "pulse/dir"
      else "analog"
    positioning := if x &&& (1 <<< 2) ≠ 0 then "absolute" else "relative"
    servo_mode :=
      let x2 := (x >>> 3) &&& 0x03
      if x2 = 0 then "position"
      else if x2 = 1 then "speed"
      else if x2 = 2 then "torque"
      else "TBD"
    enabled := if x &&& (1 <<< 5) ≠ 0 then "yes" else "no"
    b6 := if x &&& (1 <<< 6) ≠ 0 then "1 TBD" else "0 TBD" }

/-- The length code carried by byte 1 of a frame: `(arr[1] >> 5) & 0x03`,
as recomputed by the local `verify_length` of `read_response`. -/
def lc_of (arr : List Nat) : Nat := (arr.getD 1 0 >>> 5) &&& 0x03

/-- The part of `DMMDrive.read_response` that runs after the accumulation
loop has completed a frame `arr` (not timed out).  The guard
`arr and expected_len == len(arr)` is translated with
`expected_len = 4 + lc_of arr`, which is the loop's final `expected_len`
for every frame the loop can complete.  Inside each branch,
`verify_length(arr, e)` raising `DMMExceptionUnexpectedLength` is modelled
by `ReadResult.lengthErr`; branches that never assign `x` (checksum
failure, unallowed identifiers `0x00`–`0x0a` and `0x1f`, unknown
identifiers `0x1c`/`0x1d`, and the `0x0b`–`0x0f` fall-through) leave `x`
holding the last byte read, i.e. `arr`'s last element. -/
def decode_frame (arr : List Nat) : ReadResult :=
  if arr ≠ [] ∧ 4 + lc_of arr = arr.length then
    let func_id := arr.getD 1 0 &&& 0x1f
    let last := arr.getLastD 0
    if checksum_ok arr then
      if func_id ≤ 0x0a ∨ 0x1e < func_id then .ok func_id (.raw last)
      else if func_id = 0x10 then
        if lc_of arr ≠ 0 then .lengthErr (lc_of arr) 0
        else .ok func_id (.scalar7 (arr.getD 2 0 &&& 0x7f))
      else if func_id = 0x11 then
        if lc_of arr ≠ 0 then .lengthErr (lc_of arr) 0
        else .ok func_id (.scalar7 (arr.getD 2 0 &&& 0x7f))
      else if func_id = 0x12 then
        if lc_of arr ≠ 0 then .lengthErr (lc_of arr) 0
        else .ok func_id (.scalar7 (arr.getD 2 0 &&& 0x7f))
      else if func_id = 0x13 then
        if lc_of arr ≠ 0 then .lengthErr (lc_of arr) 0
        else .ok func_id (.scalar7 (arr.getD 2 0 &&& 0x7f))
      else if func_id = 0x14 then
        if lc_of arr ≠ 0 then .lengthErr (lc_of arr) 0
        else .ok func_id (.scalar7 (arr.getD 2 0 &&& 0x7f))
      else if func_id = 0x15 then
        if lc_of arr ≠ 0 then .lengthErr (lc_of arr) 0
        else .ok func_id (.scalar7 (arr.getD 2 0 &&& 0x7f))
      else if func_id = 0x16 then
        if lc_of arr ≠ 0 then .lengthErr (lc_of arr) 0
        else .ok func_id (.scalar7 (arr.getD 2 0 &&& 0x7f))
      else if func_id = 0x17 then
        if lc_of arr ≠ 0 then .lengthErr (lc_of arr) 0
        else .ok func_id (.scalar7 (arr.getD 2 0 &&& 0x7f))
      else if func_id = 0x18 then
        if lc_of arr ≠ 3 then .lengthErr (lc_of arr) 3
        else .ok func_id (.gear
          (((arr.getD 2 0 &&& 0x7f) <<< 7) ||| (arr.getD 3 0 &&& 0x7f))
          (((arr.getD 4 0 &&& 0x7f) <<< 7) ||| (arr.getD 5 0 &&& 0x7f)))
      else if func_id = 0x19 then
        if lc_of arr ≠ 0 then .lengthErr (lc_of arr) 0
        else .ok func_id (.statusRec (statusDict (arr.getD 2 0 &&& 0x7f)))
      else if func_id = 0x1a then
        if lc_of arr ≠ 0 then .lengthErr (lc_of arr) 0
        else .ok func_id (.configRec (configDict (arr.getD 2 0 &&& 0x7f)))
      else if func_id = 0x1b then .ok func_id (.signed (read_signed_val arr))
      else if func_id = 0x1c ∨ func_id = 0x1d then .ok func_id (.raw last)
      else if func_id = 0x1e then .ok func_id (.signed (read_signed_val arr))
      else .ok func_id (.raw last)
    else .ok func_id (.raw last)
  else .nameError

/-- `DMMDrive.read_response`, reading from a finite byte list: run the
accumulation loop and, if it completed a frame, decode it.  Also returns
the unconsumed input for the next call. -/
def read_response (input : List Nat) : ReadResult × List Nat :=
  match read_loop input [] 0 with
  | (none, rest) => (.timeout, rest)
  | (some arr, rest) => (decode_frame arr, rest)

/-- Outcome of `DMMDrive.check_response`: `value` models `return v`;
`unexpectedFunc` models a raised `DMMExceptionUnexpectedFunc`;
`lengthError` models a `DMMExceptionUnexpectedLength` propagating out of
`read_response`; `typeError` models the `TypeError` Python raises when the
tuple unpacking `func_id, v = self.read_response()` is applied to the bare
`False` that `read_response` returns on a timeout; `nameError` models the
`NameError` on `i` when the loop body never ran (`max_attempts = 0`). -/
inductive CheckOutcome where
  | value (x : DynValue)
  | unexpectedFunc
  | lengthError (n expected_n : Nat)
  | typeError
  | nameError
deriving DecidableEq

/-- The loop of `DMMDrive.check_response`, with the loop index `i` made
explicit and the remaining iteration count as structural fuel
(`fuel = max_attempts - i` at every call).  Mirrors the Python exactly:
on `break` (matching identifier) and on normal loop exit (last index,
`i = max_attempts - 1`) the code checks `if i == max_attempts` — which can
never hold, because `i` ranges over `0 .. max_attempts - 1` — and then
returns `v`, the value of the most recent frame. -/
def check_loop (expected_func_id max_attempts : Nat) :
    Nat → Nat → List Nat → CheckOutcome
  | _, 0, _ => .nameError
  | i, fuel + 1, input =>
    match read_response input with
    | (.timeout, _) => .typeError
    | (.lengthErr n e, _) => .lengthError n e
    | (.nameError, _) => .nameError
    | (.ok func_id v, rest) =>
      if func_id = expected_func_id then
        if i = max_attempts then .unexpectedFunc else .value v
      else if i + 1 < max_attempts then
        check_loop expected_func_id max_attempts (i + 1) fuel rest
      else
        if i = max_attempts then .unexpectedFunc else .value v

/-- `DMMDrive.check_response(expected_func_id, max_attempts)`, reading
successive frames from the byte list `input`.  The default bound in the
source is `max_attempts = 3`. -/
def check_response (expected_func_id max_attempts : Nat) (input : List Nat) :
    CheckOutcome :=
  check_loop expected_func_id max_attempts 0 max_attempts input

/-- The length code `verify_length` expects for each decoded inbound
function identifier, read off the `verify_length(arr, n)` call sites in
`read_response`: `0` for `0x10`–`0x17`, `3` for `0x18` (`Is_GearNumber`),
`0` for `0x19` (`Is_Status`) and `0x1a` (`Is_Config`); no expectation for
the remaining identifiers (no `verify_length` call). -/
def expected_lc (func_id : Nat) : Option Nat :=
  if 0x10 ≤ func_id ∧ func_id ≤ 0x17 then some 0
  else if func_id = 0x18 then some 3
  else if func_id = 0x19 ∨ func_id = 0x1a then some 0
  else none

/-- The generic outbound frame construction shared by `general_read2`,
`general_read`, `set_Config` and `set_speed` (the Frame Codec): byte 0 is
the drive address, byte 1 is `0x80 | (length_code << 5) | func_id` with
`length_code = len(payload) - 1`, each payload value contributes
`0x80 | (value & 0x7f)`, and the checksum byte
`0x80 | (sum(packet) & 0x7f)` is appended. -/
def encodeFrame (drive_id func_id : Nat) (payload : List Nat) : List Nat :=
  let lc := payload.length - 1
  let packet : List Nat :=
    [0x00 ||| drive_id, 0x80 ||| (lc <<< 5) ||| func_id] ++
      payload.map (fun v => 0x80 ||| (v &&& 0x7f))
  packet ++ [0x80 ||| (packet.sum &&& 0x7f)]

/-! ## Basic checksum lemmas -/

/-- Core checksum identity: for any byte sum `s`, the constructed checksum
byte `0x80 | (s & 0x7f)` XORs with `s` to a multiple of 128. -/
theorem checksum_xor_zero (s : Nat) : ((s ^^^ (0x80 ||| (s &&& 0x7f))) &&& 0x7f) = 0 := by
  apply Nat.eq_of_testBit_eq
  intro i
  rcases Nat.lt_or_ge i 7 with hi | hi
  · have h127 : Nat.testBit 127 i = true := by interval_cases i <;> decide
    have h128 : Nat.testBit 128 i = false := by interval_cases i <;> decide
    simp [Nat.testBit_and, Nat.testBit_xor, Nat.testBit_or, h127, h128, Nat.zero_testBit]
  · have h127 : Nat.testBit 127 i = false := by
      have h2 : (127 : Nat) < 2 ^ i := by
        calc (127 : Nat) < 2 ^ 7 := by norm_num
        _ ≤ 2 ^ i := Nat.pow_le_pow_right (by norm_num) hi
      exact Nat.testBit_lt_two_pow h2
    simp [Nat.testBit_and, h127, Nat.zero_testBit]

/-- The checksum-byte construction shared by all builders, as stated by the
spec: the last byte of the frame is `0x80 | (sum(preceding bytes) & 0x7f)`. -/
def checksum_byte_spec (frame : List Nat) : Prop :=
  frame.getLastD 0 = 0x80 ||| (frame.dropLast.sum &&& 0x7f)

theorem checksum_ok_append (l : List Nat) :
    checksum_ok (l ++ [0x80 ||| (l.sum &&& 0x7f)]) = true := by
  unfold checksum_ok
  rw [List.dropLast_concat]
  simp [List.getLastD_concat, checksum_xor_zero]

theorem checksum_byte_spec_append (l : List Nat) :
    checksum_byte_spec (l ++ [0x80 ||| (l.sum &&& 0x7f)]) := by
  unfold checksum_byte_spec
  rw [List.dropLast_concat]
  simp [List.getLastD_concat]

/-! ## Claims -/

/-- C2: for every drive address in `[0, 31]` and every frame produced by
the request builders `general_read2`, `general_read`, `set_Config` and
`set_speed`, the checksum relation `(sum(frame[:-1]) ^ frame[-1]) & 0x7f == 0`
holds, the checksum byte being `0x80 | (sum(preceding bytes) & 0x7f)`. -/
theorem C2_frame_codec_checksum (d f2 f : Nat) (rpm : Int)
    (hd : d < 32) (hf2 : f2 < 32) :
    (checksum_ok (general_read2_packet d f2) = true ∧
      checksum_byte_spec (general_read2_packet d f2)) ∧
    (∀ p, general_read_packet d f = some p →
      checksum_ok p = true ∧ checksum_byte_spec p) ∧
    (checksum_ok (set_Config_packet d) = true ∧
      checksum_byte_spec (set_Config_packet d)) ∧
    (checksum_ok (set_speed_packet d rpm) = true ∧
      checksum_byte_spec (set_speed_packet d rpm)) := by
  refine ⟨⟨checksum_ok_append _, checksum_byte_spec_append _⟩, ?_,
    ⟨checksum_ok_append _, checksum_byte_spec_append _⟩,
    ⟨checksum_ok_append _, checksum_byte_spec_append _⟩⟩
  intro p hp
  unfold general_read_packet at hp
  split at hp
  · obtain rfl : _ = p := Option.some.inj hp
    exact ⟨checksum_ok_append _, checksum_byte_spec_append _⟩
  · exact absurd hp (by simp)

/-- Witness for C2 at drive address 0, host read code `0x18`
(`Read_MainGain`), general-read code `0x1b` (`Is_AbsPos32`), rpm 50. -/
theorem C2_witness :
    ((0 : Nat) < 32 ∧ (0x18 : Nat) < 32) ∧
    checksum_ok (general_read2_packet 0 0x18) = true ∧
    checksum_ok (set_speed_packet 0 50) = true :=
  ⟨by decide,
    (C2_frame_codec_checksum 0 0x18 0x1b 50 (by decide) (by decide)).1.1,
    (C2_frame_codec_checksum 0 0x18 0x1b 50 (by decide) (by decide)).2.2.2.1⟩

/-! ## Frame Reader lemmas -/

/-- Once two bytes are accumulated and the expected length is latched, the
loop appends continuation bytes until the frame is exactly full, leaving
the rest of the input unread. -/
theorem read_loop_fill (rest : List Nat) :
    ∀ (arr : List Nat) (el : Nat) (tail : List Nat),
    2 ≤ arr.length → (∀ x ∈ rest, x &&& 0x80 ≠ 0) →
    el = arr.length + rest.length → rest ≠ [] →
    read_loop (rest ++ tail) arr el = (some (arr ++ rest), tail) := by
  induction rest with
  | nil => intro _ _ _ _ _ _ h; exact absurd rfl h
  | cons x xs ih =>
    intro arr el tail harr hcont hel _
    have hx : ¬(x &&& 0x80 = 0) := hcont x (List.mem_cons_self x xs)
    rw [List.cons_append, read_loop]
    simp only [if_neg hx]
    have h2 : ¬((arr ++ [x]).length = 2) := by
      simp only [List.length_append, List.length_cons, List.length_nil]
      omega
    rw [if_neg h2]
    rcases xs with _ | ⟨y, ys⟩
    · have hbreak : (arr ++ [x]).length = el := by
        simp only [List.length_append, List.length_cons, List.length_nil] at hel ⊢
        omega
      rw [if_pos hbreak]
      simp
    · have hnb : ¬((arr ++ [x]).length = el) := by
        simp only [List.length_append, List.length_cons, List.length_nil] at hel ⊢
        omega
      rw [if_neg hnb]
      have := ih (arr ++ [x]) el tail
        (by simp only [List.length_append, List.length_cons, List.length_nil]; omega)
        (fun z hz => hcont z (List.mem_cons_of_mem x hz))
        (by simp only [List.length_append, List.length_cons, List.length_nil] at hel ⊢; omega)
        (by simp)
      rw [this]
      simp

/-- A well-formed frame (start byte with clear high bit, continuation
bytes with set high bit, and total length matching the length code of
byte 1) is recovered in full by the accumulation loop, with any trailing
input left unconsumed. -/
theorem read_loop_frame (b0 b1 : Nat) (rest tail : List Nat)
    (h0 : b0 &&& 0x80 = 0) (h1 : ¬(b1 &&& 0x80 = 0))
    (hrest : ∀ x ∈ rest, x &&& 0x80 ≠ 0)
    (hlen : 2 + rest.length = 4 + ((b1 >>> 5) &&& 0x03)) :
    read_loop ((b0 :: b1 :: rest) ++ tail) [] 0 = (some (b0 :: b1 :: rest), tail) := by
  rw [List.cons_append, read_loop]
  simp only [if_pos h0, List.length_cons, List.length_nil]
  norm_num
  rw [read_loop]
  simp only [if_neg h1]
  have h2 : ([b0] ++ [b1]).length = 2 := by simp
  rw [if_pos h2]
  have hnb : ¬(([b0] ++ [b1]).length = 4 + ((b1 >>> 5) &&& 0x03)) := by
    simp only [List.length_append, List.length_cons, List.length_nil]
    omega
  rw [if_neg hnb]
  have hfill := read_loop_fill rest ([b0] ++ [b1]) (4 + ((b1 >>> 5) &&& 0x03)) tail
    (by simp)
    hrest
    (by simp only [List.length_append, List.length_cons, List.length_nil]; omega)
    (by rintro rfl; simp at hlen; omega)
  rw [hfill]
  simp

/-! ## Byte-shape lemmas -/

theorem start_byte_and (d : Nat) (hd : d < 128) : d &&& 0x80 = 0 := by
  have h : ∀ d < 128, d &&& 0x80 = 0 := by decide
  exact h d hd

theorem cont_byte_and (m : Nat) (hm : m < 128) : (0x80 ||| m) &&& 0x80 = 128 := by
  have h : ∀ m < 128, (0x80 ||| m) &&& 0x80 = 128 := by decide
  exact h m hm

theorem byte1_lc (f lc : Nat) (hf : f < 32) (hlc : lc < 4) :
    ((0x80 ||| (lc <<< 5) ||| f) >>> 5) &&& 0x03 = lc := by
  have h : ∀ f < 32, ∀ lc < 4, ((0x80 ||| (lc <<< 5) ||| f) >>> 5) &&& 0x03 = lc := by decide
  exact h f hf lc hlc

theorem byte1_and (f lc : Nat) (hf : f < 32) (hlc : lc < 4) :
    (0x80 ||| (lc <<< 5) ||| f) &&& 0x80 = 128 := by
  have h : ∀ f < 32, ∀ lc < 4, (0x80 ||| (lc <<< 5) ||| f) &&& 0x80 = 128 := by decide
  exact h f hf lc hlc

theorem masked_byte_lt (v : Nat) : v &&& 0x7f < 128 :=
  Nat.lt_succ_of_le (Nat.and_le_right)

/-- Identifiers accepted by `verify_func_id` are 5-bit values. -/
theorem verify_func_id_lt (f : Nat) (hf : verify_func_id f = true) : f < 32 := by
  unfold verify_func_id at hf
  simp only [Bool.or_eq_true, decide_eq_true_eq] at hf
  omega

/-! ## Builder / generic-codec correspondence -/

theorem general_read2_packet_eq_encodeFrame (d f2 : Nat) :
    general_read2_packet d f2 = encodeFrame d f2 [0] := by
  simp [general_read2_packet, encodeFrame]

theorem general_read_packet_eq_encodeFrame (d f : Nat) (p : List Nat)
    (hp : general_read_packet d f = some p) : p = encodeFrame d 0x0e [f] := by
  unfold general_read_packet at hp
  split at hp
  · obtain rfl : _ = p := Option.some.inj hp
    simp [encodeFrame]
  · exact absurd hp (by simp)

theorem set_Config_packet_eq_encodeFrame (d : Nat) :
    set_Config_packet d = encodeFrame d 0x07 [set_Config_cnf] := by
  have h43 : (0x80 ||| (set_Config_cnf &&& 0x7f) : Nat) = 0x80 ||| set_Config_cnf := by decide
  simp [set_Config_packet, encodeFrame, h43]

/-- `pyAnd x 0x7f` is a 7-bit value. -/
theorem pyAnd_lt (x : Int) : pyAnd x 0x7f < 128 := by
  unfold pyAnd
  rcases x with a | a
  · exact masked_byte_lt a
  · show Nat.ldiff 127 a < 128
    have heq : Nat.ldiff 127 a = Nat.ldiff 127 a &&& 127 := by
      apply Nat.eq_of_testBit_eq
      intro k
      rw [Nat.testBit_and, Nat.testBit_ldiff]
      rcases Nat.lt_or_ge k 7 with hk | hk
      · have h127 : Nat.testBit 127 k = true := by interval_cases k <;> decide
        simp [h127]
      · have h127 : Nat.testBit 127 k = false := Nat.testBit_lt_two_pow
          (calc (127 : Nat) < 2 ^ 7 := by norm_num
            _ ≤ 2 ^ k := Nat.pow_le_pow_right (by norm_num) hk)
        simp [h127]
    rw [heq]
    show Nat.ldiff 127 a &&& 127 < 2 ^ 7
    exact Nat.and_lt_two_pow _ (by norm_num)

theorem set_speed_packet_eq_encodeFrame (d : Nat) (rpm : Int) :
    set_speed_packet d rpm = encodeFrame d 0x0a
      [pyAnd (pyShr rpm (7 * 3)) 0x7f, pyAnd (pyShr rpm (7 * 2)) 0x7f,
       pyAnd (pyShr rpm (7 * 1)) 0x7f, pyAnd (pyShr rpm (7 * 0)) 0x7f] := by
  have hm : ∀ m < 128, m &&& 0x7f = m := by decide
  simp [set_speed_packet, encodeFrame, hm _ (pyAnd_lt (pyShr rpm 21)),
    hm _ (pyAnd_lt (pyShr rpm 14)), hm _ (pyAnd_lt (pyShr rpm 7)),
    hm _ (pyAnd_lt (pyShr rpm 0))]

/-- C3: encode-then-read round trip: for every drive address in `[0, 31]`,
function identifier in the legal set, and payload of up to 4 seven-bit
values, feeding the frame produced by the Frame Codec to the accumulation
loop of `read_response` (with no timeout) yields a completed frame equal
byte-for-byte to the encoded frame. -/
theorem C3_encode_read_round_trip (d f : Nat) (payload : List Nat)
    (hd : d < 32) (hf : verify_func_id f = true)
    (hp1 : 1 ≤ payload.length) (hp4 : payload.length ≤ 4)
    (hpv : ∀ v ∈ payload, v < 128) :
    read_loop (encodeFrame d f payload) [] 0 =
      (some (encodeFrame d f payload), []) := by
  have hf32 : f < 32 := verify_func_id_lt f hf
  have hlc : payload.length - 1 < 4 := by omega
  unfold encodeFrame
  simp only [List.cons_append, List.nil_append]
  set rest : List Nat :=
    payload.map (fun v => 0x80 ||| (v &&& 0x7f)) ++
      [0x80 ||| (((0x00 ||| d) :: (0x80 ||| ((payload.length - 1) <<< 5) ||| f) ::
        payload.map (fun v => 0x80 ||| (v &&& 0x7f))).sum &&& 0x7f)] with hrest
  have h0 : (0x00 ||| d) &&& 0x80 = 0 := by
    rw [Nat.zero_or]
    exact start_byte_and d (by omega)
  have h1 : ¬((0x80 ||| ((payload.length - 1) <<< 5) ||| f) &&& 0x80 = 0) := by
    rw [byte1_and f (payload.length - 1) hf32 hlc]
    omega
  have hrestc : ∀ x ∈ rest, x &&& 0x80 ≠ 0 := by
    intro x hx
    rw [hrest] at hx
    rcases List.mem_append.mp hx with hx | hx
    · obtain ⟨v, _, rfl⟩ := List.mem_map.mp hx
      rw [cont_byte_and _ (masked_byte_lt v)]
      omega
    · rw [List.mem_singleton.mp hx, cont_byte_and _ (masked_byte_lt _)]
      omega
  have hlen : 2 + rest.length =
      4 + (((0x80 ||| ((payload.length - 1) <<< 5) ||| f) >>> 5) &&& 0x03) := by
    rw [byte1_lc f (payload.length - 1) hf32 hlc, hrest]
    simp only [List.length_append, List.length_map, List.length_cons, List.length_nil]
    omega
  have := read_loop_frame (0x00 ||| d) (0x80 ||| ((payload.length - 1) <<< 5) ||| f)
    rest [] h0 h1 hrestc hlen
  rw [List.append_nil] at this
  exact this

/-- Witness for C3 at drive address 1, identifier `0x1b` (`Is_AbsPos32`),
payload `[1, 2, 3, 4]`. -/
theorem C3_witness :
    ((1 : Nat) < 32 ∧ verify_func_id 0x1b = true ∧
      1 ≤ ([1, 2, 3, 4] : List Nat).length ∧ ([1, 2, 3, 4] : List Nat).length ≤ 4 ∧
      ∀ v ∈ ([1, 2, 3, 4] : List Nat), v < 128) ∧
    read_loop (encodeFrame 1 0x1b [1, 2, 3, 4]) [] 0 =
      (some (encodeFrame 1 0x1b [1, 2, 3, 4]), []) :=
  ⟨⟨by decide, by decide, by decide, by decide, by decide⟩,
    C3_encode_read_round_trip 1 0x1b [1, 2, 3, 4] (by decide) (by decide)
      (by decide) (by decide) (by decide)⟩

/-! ## Signed-value decoding lemmas -/

/-- Evaluation of the first-byte sign extension of `read_signed_val` on
every 7-bit payload with the continuation marker set. -/
theorem x0_eval : ∀ m < 128, pyShr (sign_extend ((0x80 ||| m) <<< 1) 8) 1 =
    if m ≤ 63 then (m : Int) else (m : Int) - 128 := by decide

/-- On a 4-byte frame `read_signed_val` only sees the single payload byte. -/
theorem rsv4 (b0 b1 c ck : Nat) :
    read_signed_val [b0, b1, c, ck] = pyShr (sign_extend (c <<< 1) 8) 1 := rfl

theorem ldiff_helper (a m : Nat) (hm : m < 128) :
    Nat.ldiff (128 * a + 127) m = 128 * a + (127 - m) := by
  have hsub : ∀ m < 128, 127 - m = 127 ^^^ m := by decide
  apply Nat.eq_of_testBit_eq
  intro j
  have h1 : (128 * a + 127 : Nat) = 2 ^ 7 * a + 127 := by norm_num
  have h2 : (128 * a + (127 - m) : Nat) = 2 ^ 7 * a + (127 - m) := by norm_num
  rw [Nat.testBit_ldiff, h1, h2,
    Nat.testBit_mul_pow_two_add a (by norm_num : (127 : Nat) < 2 ^ 7) j,
    Nat.testBit_mul_pow_two_add a (by omega : (127 - m : Nat) < 2 ^ 7) j]
  rcases Nat.lt_or_ge j 7 with hj | hj
  · have h127 : Nat.testBit 127 j = true := by interval_cases j <;> decide
    rw [if_pos hj, if_pos hj, hsub m hm, Nat.testBit_xor, h127]
    simp
  · have hmj : Nat.testBit m j = false := Nat.testBit_lt_two_pow
      (calc m < 2 ^ 7 := hm
        _ ≤ 2 ^ j := Nat.pow_le_pow_right (by norm_num) hj)
    rw [if_neg (by omega), if_neg (by omega), hmj]
    simp

/-- Folding a 7-bit value into an accumulator shifted left by 7 places can
be written equivalently with `+` (as the source does) or with bitwise or
(as the spec does): the low 7 bits of the shifted accumulator are zero. -/
theorem int_lor_shl7 (x : Int) (m : Nat) (hm : m < 128) :
    Int.lor (pyShl x 7) (Int.ofNat m) = pyShl x 7 + Int.ofNat m := by
  rcases x with a | a
  · have h1 : pyShl (Int.ofNat a) 7 = Int.ofNat (128 * a) := by
      show (Int.ofNat a) * 2 ^ 7 = Int.ofNat (128 * a)
      simp only [Int.ofNat_eq_natCast]
      push_cast
      ring
    rw [h1]
    show Int.ofNat (128 * a ||| m) = Int.ofNat (128 * a) + Int.ofNat m
    have h2 : (128 * a + m : Nat) = 128 * a ||| m := by
      have := Nat.mul_add_lt_is_or (show m < 2 ^ 7 by omega) a
      norm_num at this
      convert this using 2 <;> ring
    rw [← h2]
    simp only [Int.ofNat_eq_natCast]
    push_cast
    ring
  · have h1 : pyShl (Int.negSucc a) 7 = Int.negSucc (128 * a + 127) := by
      show (Int.negSucc a) * 2 ^ 7 = Int.negSucc (128 * a + 127)
      rw [Int.negSucc_eq, Int.negSucc_eq]
      push_cast
      ring
    rw [h1]
    show Int.negSucc (Nat.ldiff (128 * a + 127) m) =
      Int.negSucc (128 * a + 127) + Int.ofNat m
    rw [ldiff_helper a m hm, Int.negSucc_eq, Int.negSucc_eq]
    simp only [Int.ofNat_eq_natCast]
    push_cast
    omega

/-- Appending one more payload byte before the checksum folds it into the
accumulator by a shift of 7 and a bitwise or of its low 7 bits. -/
theorem rsv_fold (b0 b1 p y ck : Nat) (ps : List Nat) :
    read_signed_val (b0 :: b1 :: p :: (ps ++ [y, ck])) =
      Int.lor (pyShl (read_signed_val (b0 :: b1 :: p :: (ps ++ [ck]))) 7)
        (Int.ofNat (y &&& 0x7f)) := by
  rw [int_lor_shl7 _ _ (masked_byte_lt y)]
  simp only [read_signed_val]
  have hd1 : ((b0 :: b1 :: p :: (ps ++ [y, ck])).drop 2).dropLast = p :: (ps ++ [y]) := by
    show (p :: (ps ++ [y, ck])).dropLast = _
    have h : p :: (ps ++ [y, ck]) = (p :: (ps ++ [y])) ++ [ck] := by simp
    rw [h, List.dropLast_concat]
  have hd2 : ((b0 :: b1 :: p :: (ps ++ [ck])).drop 2).dropLast = p :: ps := by
    show (p :: (ps ++ [ck])).dropLast = _
    have h : p :: (ps ++ [ck]) = (p :: ps) ++ [ck] := by simp
    rw [h, List.dropLast_concat]
  rw [hd1, hd2]
  simp only [List.headD, List.tail_cons]
  rw [List.foldl_concat]

/-- C4: SignedInteger sign extension.  (i) For every 4-byte checksum-valid
frame whose function identifier is `0x1b` or `0x1e` and whose payload byte
carries `v % 128` for a signed `v ∈ [-64, 63]`, the decoder recovers
exactly `v`.  (ii) In particular a payload byte `0x7f` decodes to `-1` and
a payload byte `0x00` decodes to `0`.  (iii) For longer frames each
subsequent payload byte is folded in by `value = (value << 7) | (byte & 0x7f)`. -/
theorem C4_signed_sign_extension :
    (∀ (v : Int) (b0 b1 ck : Nat), -64 ≤ v → v ≤ 63 →
      (b1 &&& 0x1f = 0x1b ∨ b1 &&& 0x1f = 0x1e) →
      lc_of [b0, b1, 0x80 ||| (v % 128).toNat, ck] = 0 →
      checksum_ok [b0, b1, 0x80 ||| (v % 128).toNat, ck] = true →
      decode_frame [b0, b1, 0x80 ||| (v % 128).toNat, ck] =
        .ok (b1 &&& 0x1f) (.signed v)) ∧
    (∀ b0 b1 ck : Nat,
      read_signed_val [b0, b1, 0x7f, ck] = -1 ∧
      read_signed_val [b0, b1, 0x00, ck] = 0) ∧
    (∀ (b0 b1 p y ck : Nat) (ps : List Nat),
      read_signed_val (b0 :: b1 :: p :: (ps ++ [y, ck])) =
        Int.lor (pyShl (read_signed_val (b0 :: b1 :: p :: (ps ++ [ck]))) 7)
          (Int.ofNat (y &&& 0x7f))) := by
  refine ⟨?_, ?_, fun b0 b1 p y ck ps => rsv_fold b0 b1 p y ck ps⟩
  · intro v b0 b1 ck hv1 hv2 hfid hlc hcrc
    have hm : (v % 128).toNat < 128 := by omega
    have hrsv : read_signed_val [b0, b1, 0x80 ||| (v % 128).toNat, ck] = v := by
      rw [rsv4, x0_eval _ hm]
      split <;> omega
    have hg : ([b0, b1, 0x80 ||| (v % 128).toNat, ck] : List Nat).getD 1 0 = b1 := rfl
    rcases hfid with hfid | hfid <;>
      simp [decode_frame, hg, hfid, hlc, hcrc, hrsv]
  · intro b0 b1 ck
    exact ⟨by rw [rsv4]; decide, by rw [rsv4]; decide⟩

/-- Witness for C4 (i) at `v = -1` in an `Is_AbsPos32` (`0x1b`) frame. -/
theorem C4_witness :
    ((-64 : Int) ≤ -1 ∧ (-1 : Int) ≤ 63 ∧
      ((0x9b : Nat) &&& 0x1f = 0x1b ∨ (0x9b : Nat) &&& 0x1f = 0x1e) ∧
      lc_of [0x00, 0x9b, 0x80 ||| ((-1 : Int) % 128).toNat, 0x9a] = 0 ∧
      checksum_ok [0x00, 0x9b, 0x80 ||| ((-1 : Int) % 128).toNat, 0x9a] = true) ∧
    decode_frame [0x00, 0x9b, 0x80 ||| ((-1 : Int) % 128).toNat, 0x9a] =
      .ok (0x9b &&& 0x1f) (.signed (-1)) :=
  ⟨⟨by decide, by decide, by decide, by decide, by decide⟩,
    C4_signed_sign_extension.1 (-1) 0x00 0x9b 0x9a (by decide) (by decide)
      (by decide) (by decide) (by decide)⟩

/-- C5: GearPair decode: every accepted 7-byte frame with function
identifier `0x18` decodes to the pair
`[(byte2 & 0x7f) << 7 | (byte3 & 0x7f), (byte4 & 0x7f) << 7 | (byte5 & 0x7f)]`;
in particular payload bytes `[0x01, 0x02, 0x03, 0x04]` decode to
`[130, 388]`. -/
theorem C5_gear_decode :
    (∀ arr : List Nat, arr.length = 7 → lc_of arr = 3 →
      arr.getD 1 0 &&& 0x1f = 0x18 → checksum_ok arr = true →
      decode_frame arr = .ok 0x18 (.gear
        (((arr.getD 2 0 &&& 0x7f) <<< 7) ||| (arr.getD 3 0 &&& 0x7f))
        (((arr.getD 4 0 &&& 0x7f) <<< 7) ||| (arr.getD 5 0 &&& 0x7f)))) ∧
    decode_frame [0x00, 0xf8, 0x81, 0x82, 0x83, 0x84, 0x82] =
      .ok 0x18 (.gear 130 388) := by
  constructor
  · intro arr hlen hlc hfid hcrc
    have hne : arr ≠ [] := by intro h; rw [h] at hlen; simp at hlen
    simp only [decode_frame]
    rw [if_pos ⟨hne, by rw [hlc, hlen]⟩, if_pos hcrc, hfid]
    norm_num [hlc]
  · decide

/-- Witness for C5 at the frame whose payload values are `1, 2, 3, 4`. -/
theorem C5_witness :
    (([0x00, 0xf8, 0x81, 0x82, 0x83, 0x84, 0x82] : List Nat).length = 7 ∧
      lc_of [0x00, 0xf8, 0x81, 0x82, 0x83, 0x84, 0x82] = 3 ∧
      ([0x00, 0xf8, 0x81, 0x82, 0x83, 0x84, 0x82] : List Nat).getD 1 0 &&& 0x1f = 0x18 ∧
      checksum_ok [0x00, 0xf8, 0x81, 0x82, 0x83, 0x84, 0x82] = true) ∧
    decode_frame [0x00, 0xf8, 0x81, 0x82, 0x83, 0x84, 0x82] =
      .ok 0x18 (.gear
        ((((0x81 : Nat) &&& 0x7f) <<< 7) ||| ((0x82 : Nat) &&& 0x7f))
        ((((0x83 : Nat) &&& 0x7f) <<< 7) ||| ((0x84 : Nat) &&& 0x7f))) :=
  ⟨⟨by decide, by decide, by decide, by decide⟩,
    C5_gear_decode.1 [0x00, 0xf8, 0x81, 0x82, 0x83, 0x84, 0x82]
      (by decide) (by decide) (by decide) (by decide)⟩

/-- C6: length-code mismatch: every checksum-valid frame whose received
length code differs from the length code the decoder expects for its
function identifier fails with `DMMExceptionUnexpectedLength` before any
field extraction and never decodes a value. -/
theorem C6_length_mismatch (arr : List Nat) (e : Nat)
    (hlen : 4 + lc_of arr = arr.length)
    (hcrc : checksum_ok arr = true)
    (hexp : expected_lc (arr.getD 1 0 &&& 0x1f) = some e)
    (hne : lc_of arr ≠ e) :
    decode_frame arr = .lengthErr (lc_of arr) e ∧
      ∀ fid v, decode_frame arr ≠ .ok fid v := by
  have hnn : arr ≠ [] := by
    intro h
    rw [h] at hlen
    simp [lc_of] at hlen
  have hmain : decode_frame arr = .lengthErr (lc_of arr) e := by
    simp only [decode_frame]
    rw [if_pos ⟨hnn, hlen⟩, if_pos hcrc]
    unfold expected_lc at hexp
    split_ifs at hexp with h1 h2 h3
    · obtain rfl : (0 : Nat) = e := Option.some.inj hexp
      obtain ⟨ha, hb⟩ := h1
      set fid := arr.getD 1 0 &&& 0x1f with hfid
      interval_cases fid <;> simp [hne]
    · obtain rfl : (3 : Nat) = e := Option.some.inj hexp
      rw [h2]
      simp [hne]
    · obtain rfl : (0 : Nat) = e := Option.some.inj hexp
      rcases h3 with h3 | h3 <;> rw [h3] <;> simp [hne]
  refine ⟨hmain, ?_⟩
  rw [hmain]
  intro fid v h
  exact ReadResult.noConfusion h

/-- Witness for C6: an `Is_GearNumber` (`0x18`) response arriving in a
4-byte frame (length code 0 instead of the expected 3). -/
theorem C6_witness :
    (4 + lc_of [0x00, 0x98, 0x80, 0x98] = ([0x00, 0x98, 0x80, 0x98] : List Nat).length ∧
      checksum_ok [0x00, 0x98, 0x80, 0x98] = true ∧
      expected_lc (([0x00, 0x98, 0x80, 0x98] : List Nat).getD 1 0 &&& 0x1f) = some 3 ∧
      lc_of [0x00, 0x98, 0x80, 0x98] ≠ 3) ∧
    decode_frame [0x00, 0x98, 0x80, 0x98] = .lengthErr (lc_of [0x00, 0x98, 0x80, 0x98]) 3 :=
  ⟨⟨by decide, by decide, by decide, by decide⟩,
    (C6_length_mismatch [0x00, 0x98, 0x80, 0x98] 3
      (by decide) (by decide) (by decide) (by decide)).1⟩

/-- Whether a `DynValue` is an actually decoded value (`Scalar7`,
`GearPair`, `StatusRecord`, `ConfigRecord` or `SignedInteger`) rather than
a raw transport byte. -/
def isDecodedValue : DynValue → Bool
  | .raw _ => false
  | _ => true

/-- C8: unallowed inbound function identifiers: for every checksum-valid
frame whose function identifier is in `0x00`–`0x0a` or greater than
`0x1e`, the decoder produces no decoded value — the returned value slot
holds the last raw byte. -/
theorem C8_unallowed (arr : List Nat)
    (hnn : arr ≠ []) (hlen : 4 + lc_of arr = arr.length)
    (hcrc : checksum_ok arr = true)
    (hfid : arr.getD 1 0 &&& 0x1f ≤ 0x0a ∨ 0x1e < arr.getD 1 0 &&& 0x1f) :
    decode_frame arr = .ok (arr.getD 1 0 &&& 0x1f) (.raw (arr.getLastD 0)) ∧
      ∀ fid v, decode_frame arr = .ok fid v → isDecodedValue v = false := by
  have hmain : decode_frame arr = .ok (arr.getD 1 0 &&& 0x1f) (.raw (arr.getLastD 0)) := by
    simp only [decode_frame]
    rw [if_pos ⟨hnn, hlen⟩, if_pos hcrc, if_pos hfid]
  refine ⟨hmain, ?_⟩
  rw [hmain]
  intro fid v h
  obtain ⟨-, rfl⟩ := ReadResult.ok.inj h
  rfl

/-- Witness for C8: a checksum-valid frame carrying the unallowed
identifier `0x05`. -/
theorem C8_witness :
    (([0x00, 0x85, 0x80, 0x85] : List Nat) ≠ [] ∧
      4 + lc_of [0x00, 0x85, 0x80, 0x85] = ([0x00, 0x85, 0x80, 0x85] : List Nat).length ∧
      checksum_ok [0x00, 0x85, 0x80, 0x85] = true ∧
      (([0x00, 0x85, 0x80, 0x85] : List Nat).getD 1 0 &&& 0x1f ≤ 0x0a ∨
        0x1e < ([0x00, 0x85, 0x80, 0x85] : List Nat).getD 1 0 &&& 0x1f)) ∧
    decode_frame [0x00, 0x85, 0x80, 0x85] = .ok 0x05 (.raw 0x85) :=
  ⟨⟨by decide, by decide, by decide, by decide⟩, by
    have h := (C8_unallowed [0x00, 0x85, 0x80, 0x85]
      (by decide) (by decide) (by decide) (by decide)).1
    rw [h]
    decide⟩

/-- C10: checksum failure: for every completed frame whose checksum check
fails, `read_response` raises nothing and decodes nothing, returning the
pair of the function identifier from byte 1 and the last raw byte read
(the checksum byte), so the caller receives a raw transport byte in the
value position. -/
theorem C10_crc_fail_returns_raw (arr : List Nat)
    (hnn : arr ≠ []) (hlen : 4 + lc_of arr = arr.length)
    (hcrc : checksum_ok arr = false) :
    decode_frame arr = .ok (arr.getD 1 0 &&& 0x1f) (.raw (arr.getLastD 0)) := by
  simp only [decode_frame]
  rw [if_pos ⟨hnn, hlen⟩, if_neg (by simp [hcrc])]

/-- Witness for C10: an `Is_MainGain` frame with a corrupted checksum byte
(`0x91` instead of `0x90`): the raw corrupted byte is returned as the
value. -/
theorem C10_witness :
    (([0x00, 0x90, 0x80, 0x91] : List Nat) ≠ [] ∧
      4 + lc_of [0x00, 0x90, 0x80, 0x91] = ([0x00, 0x90, 0x80, 0x91] : List Nat).length ∧
      checksum_ok [0x00, 0x90, 0x80, 0x91] = false) ∧
    decode_frame [0x00, 0x90, 0x80, 0x91] = .ok 0x10 (.raw 0x91) :=
  ⟨⟨by decide, by decide, by decide⟩, by
    have h := C10_crc_fail_returns_raw [0x00, 0x90, 0x80, 0x91]
      (by decide) (by decide) (by decide)
    rw [h]
    decide⟩

/-- C9 (amended): StatusRecord decode: every accepted 4-byte frame with
function identifier `0x19` decodes to the status record read off
`byte2 & 0x7f` with bit 0 → in_position (inverted: bit set means not in
position), bit 1 → motor free, bits 2–4 → alarm variant (0 = none,
1 = lost phase, 2 = over current, 3 = overheat/overpower, 4 = corrupt
command, > 4 = reserved), bit 5 → motion busy, bit 6 → pin2; in
particular `byte2 = 0x22` decodes to in-position = true, motor free,
no alarm, motion busy, pin2 clear. -/
theorem C9_status_decode :
    (∀ arr : List Nat, arr.length = 4 → lc_of arr = 0 →
      arr.getD 1 0 &&& 0x1f = 0x19 → checksum_ok arr = true →
      decode_frame arr = .ok 0x19 (.statusRec (statusDict (arr.getD 2 0 &&& 0x7f)))) ∧
    (∀ x < 128,
      ((statusDict x).in_position = "0" ↔ x.testBit 0 = true) ∧
      ((statusDict x).motor = "motor free" ↔ x.testBit 1 = true) ∧
      ((statusDict x).alarm = "" ↔ (x >>> 2) &&& 0x7 = 0) ∧
      ((statusDict x).alarm = "lost phase" ↔ (x >>> 2) &&& 0x7 = 1) ∧
      ((statusDict x).alarm = "over current" ↔ (x >>> 2) &&& 0x7 = 2) ∧
      ((statusDict x).alarm = "overheat or over power" ↔ (x >>> 2) &&& 0x7 = 3) ∧
      ((statusDict x).alarm = "corrupt command" ↔ (x >>> 2) &&& 0x7 = 4) ∧
      ((statusDict x).alarm = "TBD" ↔ 4 < (x >>> 2) &&& 0x7) ∧
      ((statusDict x).motion = "busy" ↔ x.testBit 5 = true) ∧
      ((statusDict x).pin2 = "1" ↔ x.testBit 6 = true)) ∧
    decode_frame [0x00, 0x99, 0xa2, 0xbb] =
      .ok 0x19 (.statusRec ⟨"1", "motor free", "", "busy", "0"⟩) := by
  refine ⟨?_, by decide, by decide⟩
  intro arr hlen hlc hfid hcrc
  have hne : arr ≠ [] := by intro h; rw [h] at hlen; simp at hlen
  simp only [decode_frame]
  rw [if_pos ⟨hne, by rw [hlc, hlen]⟩, if_pos hcrc, hfid]
  norm_num [hlc]

/-- Witness for C9 at the frame with `byte2 & 0x7f = 0x22`. -/
theorem C9_witness :
    (([0x00, 0x99, 0xa2, 0xbb] : List Nat).length = 4 ∧
      lc_of [0x00, 0x99, 0xa2, 0xbb] = 0 ∧
      ([0x00, 0x99, 0xa2, 0xbb] : List Nat).getD 1 0 &&& 0x1f = 0x19 ∧
      checksum_ok [0x00, 0x99, 0xa2, 0xbb] = true) ∧
    decode_frame [0x00, 0x99, 0xa2, 0xbb] =
      .ok 0x19 (.statusRec (statusDict ((0xa2 : Nat) &&& 0x7f))) :=
  ⟨⟨by decide, by decide, by decide, by decide⟩,
    C9_status_decode.1 [0x00, 0x99, 0xa2, 0xbb]
      (by decide) (by decide) (by decide) (by decide)⟩

/-- Counterexample for C9 as stated: at `byte2 & 0x7f = 0x22` (bit 1 and
bit 5 set), the decoded record has in-position `"1"` (bit 0 clear, so the
motor is in position — not false) and motion `"busy"` (bit 5 set — not
false), refuting the claimed field values in-position = false and
motion-busy = false. -/
theorem C9_claim_example_false :
    decode_frame [0x00, 0x99, 0xa2, 0xbb] =
      .ok 0x19 (.statusRec ⟨"1", "motor free", "", "busy", "0"⟩) ∧
    (StatusDict.mk "1" "motor free" "" "busy" "0" ≠
      StatusDict.mk "0" "motor free" "" "completed" "0") := by
  decide

/-- C1/code bug: with the default bound of 3 attempts, a stream of two
non-matching frames followed by a matching one yields the third frame's
decoded value; but a stream of three non-matching frames also returns the
third frame's decoded value instead of raising
`DMMExceptionUnexpectedFunc`: the guard `if i == max_attempts` in
`check_response` can never hold because `range(max_attempts)` ends at
`max_attempts - 1`. -/
theorem C1_retry_returns_last_value :
    check_response 0x11 3
      ([0x00, 0x90, 0x85, 0x95] ++ [0x00, 0x90, 0x86, 0x96] ++ [0x00, 0x91, 0x87, 0x98]) =
      .value (.scalar7 7) ∧
    check_response 0x11 3
      ([0x00, 0x90, 0x85, 0x95] ++ [0x00, 0x90, 0x86, 0x96] ++ [0x00, 0x90, 0x87, 0x97]) =
      .value (.scalar7 7) ∧
    CheckOutcome.value (.scalar7 7) ≠ .unexpectedFunc := by
  decide

/-- C7/code bug: a transport timeout during a `check_response` exchange is
not a counted retry: `read_response` returns the bare `False`, and the
tuple unpacking in `check_response` fails immediately (a `TypeError`),
both on the first attempt and after a non-matching frame. -/
theorem C7_timeout_is_type_error :
    check_response 0x11 3 [] = .typeError ∧
    check_response 0x11 3 [0x00, 0x90, 0x85, 0x95, 0x00] = .typeError ∧
    CheckOutcome.typeError ≠ .unexpectedFunc := by
  decide

end Dyn4
